import Mathlib

/-!
# Verification of the VS Code → Warp theme converter

A shallow embedding, in Lean 4, of the string-processing core of the
`vscode-to-warp` repository (Go): color normalization (`cleanColor`),
color lookup with defaults (`getColorOrDefault`, `findFirstColor`), the
theme conversion itself (`ConvertVSCodeToWarp`, `convertTerminalColors`),
the filename sanitizer (`cleanFilename`), theme discovery
(`DiscoverVSCodeThemes`, `parseThemeFile`, `extractExtensionName`) and the
path predicate `isThemesDirectory`.

Modelling conventions:
- Go strings are modelled as Lean `String` (a wrapper around `List Char`);
  all string constants appearing in the program are ASCII, where Go's
  byte-based `len`/indexing coincides with `List Char` length/indexing.
- Go maps `map[string]string` are modelled as association lists
  `List (String × String)` queried with `List.lookup` (Go map lookup
  never depends on iteration order in this program).
- Filesystem walking and JSON parsing are I/O; a walked tree is modelled
  as the list of regular files visited, in traversal order, each carrying
  the result of attempting to parse it (`none` = unreadable or malformed
  JSON or JSON not matching the theme shape).
-/

/-- Whitespace test used by Go's `strings.TrimSpace` (`unicode.IsSpace`):
the Unicode White_Space code points. -/
def goIsSpace (c : Char) : Bool :=
  let n := c.toNat
  (0x09 ≤ n && n ≤ 0x0D) || n == 0x20 || n == 0x85 || n == 0xA0 ||
    n == 0x1680 || (0x2000 ≤ n && n ≤ 0x200A) || n == 0x2028 || n == 0x2029 ||
    n == 0x202F || n == 0x205F || n == 0x3000

/-- `strings.TrimSpace` on the character list: drop leading and trailing
whitespace. -/
def trimSpaceList (l : List Char) : List Char :=
  ((l.dropWhile goIsSpace).reverse.dropWhile goIsSpace).reverse

/-- Go `strings.TrimSpace`. -/
def trimSpace (s : String) : String :=
  String.mk (trimSpaceList s.data)

/-- Go `strings.HasPrefix(color, "#")`. -/
def startsWithHash (s : String) : Bool :=
  match s.data with
  | '#' :: _ => true
  | _ => false

/-- The `fmt.Sprintf("#%c%c%c%c%c%c", color[1], color[1], color[2],
color[2], color[3], color[3])` expansion of a 4-character `#RGB` literal
(`cleanColor`, src/unnamed/part_000 lines 131-135).  Only ever applied to
lists of length exactly 4. -/
def expand4 : List Char → List Char
  | [_, a, b, c] => ['#', a, a, b, b, c, c]
  | l => l

/-- `cleanColor` (src/unnamed/part_000 lines 117-138): trim whitespace;
return non-`#`-prefixed strings as-is; truncate 9-character `#RRGGBBAA`
to 7 characters; expand 4-character `#RGB` by duplication; return
everything else unchanged. -/
def cleanColor (color : String) : String :=
  let color := trimSpace color
  if !startsWithHash color then color
  else if color.data.length = 9 then String.mk (color.data.take 7)
  else if color.data.length = 4 then String.mk (expand4 color.data)
  else color

/-- `VSCodeTheme` (src/vscode.go lines 13-18): the parsed source theme
document.  `Colors` is a Go `map[string]string`, modelled as an
association list queried with `List.lookup`.  The `TokenColors` field is
carried by the Go struct but read by none of the modelled operations, so
it is omitted here. -/
structure VSCodeTheme where
  name : String
  type : String
  colors : List (String × String)
deriving Repr, DecidableEq

/-- `ColorPalette` (src/unnamed/part_000 lines 28-37): 8 named colors. -/
structure ColorPalette where
  black : String
  red : String
  green : String
  yellow : String
  blue : String
  magenta : String
  cyan : String
  white : String
deriving Repr, DecidableEq

/-- `TerminalColors` (src/unnamed/part_000 lines 22-25). -/
structure TerminalColors where
  normal : ColorPalette
  bright : ColorPalette
deriving Repr, DecidableEq

/-- `WarpTheme` (src/unnamed/part_000 lines 13-19): the destination theme
document. -/
structure WarpTheme where
  accent : String
  background : String
  details : String
  foreground : String
  terminalColors : TerminalColors
deriving Repr, DecidableEq

/-- `getColorOrDefault` (src/unnamed/part_000 lines 99-104): if the key
exists with a non-empty value, return its cleaned color, else the
default. -/
def getColorOrDefault (colors : List (String × String))
    (key defaultValue : String) : String :=
  match colors.lookup key with
  | some color => if color ≠ "" then cleanColor color else defaultValue
  | none => defaultValue

/-- `findFirstColor` (src/unnamed/part_000 lines 107-114): first key in
`keys` present with a non-empty value wins; else the default. -/
def findFirstColor (colors : List (String × String))
    (keys : List String) (defaultValue : String) : String :=
  match keys with
  | [] => defaultValue
  | key :: rest =>
    match colors.lookup key with
    | some color =>
      if color ≠ "" then cleanColor color
      else findFirstColor colors rest defaultValue
    | none => findFirstColor colors rest defaultValue

/-- The ordered accent candidate key list (src/unnamed/part_000 lines
48-55). -/
def accentKeys : List String :=
  ["focusBorder", "button.background", "progressBar.background",
   "textLink.foreground", "editorCursor.foreground", "terminal.ansiBlue"]

/-- `convertTerminalColors` (src/unnamed/part_000 lines 73-96): the 16
palette slots with their hard-coded defaults. -/
def convertTerminalColors (colors : List (String × String)) : TerminalColors :=
  { normal :=
    { black := getColorOrDefault colors "terminal.ansiBlack" "#1e1e1e"
      red := getColorOrDefault colors "terminal.ansiRed" "#f44747"
      green := getColorOrDefault colors "terminal.ansiGreen" "#6a9955"
      yellow := getColorOrDefault colors "terminal.ansiYellow" "#dcdcaa"
      blue := getColorOrDefault colors "terminal.ansiBlue" "#569cd6"
      magenta := getColorOrDefault colors "terminal.ansiMagenta" "#c586c0"
      cyan := getColorOrDefault colors "terminal.ansiCyan" "#9cdcfe"
      white := getColorOrDefault colors "terminal.ansiWhite" "#d4d4d4" }
    bright :=
    { black := getColorOrDefault colors "terminal.ansiBrightBlack" "#686868"
      red := getColorOrDefault colors "terminal.ansiBrightRed" "#f44747"
      green := getColorOrDefault colors "terminal.ansiBrightGreen" "#6a9955"
      yellow := getColorOrDefault colors "terminal.ansiBrightYellow" "#dcdcaa"
      blue := getColorOrDefault colors "terminal.ansiBrightBlue" "#569cd6"
      magenta := getColorOrDefault colors "terminal.ansiBrightMagenta" "#c586c0"
      cyan := getColorOrDefault colors "terminal.ansiBrightCyan" "#9cdcfe"
      white := getColorOrDefault colors "terminal.ansiBrightWhite" "#ffffff" } }

/-- `ConvertVSCodeToWarp` (src/unnamed/part_000 lines 40-70).  The Go
function also returns an `error` that is always `nil`; the error channel
is omitted.  (The caller-side variant passes optional extension metadata,
which the converter does not consume.) -/
def convertVSCodeToWarp (vscodeTheme : VSCodeTheme) : WarpTheme :=
  { background := getColorOrDefault vscodeTheme.colors "editor.background" "#1e1e1e"
    foreground := getColorOrDefault vscodeTheme.colors "editor.foreground" "#d4d4d4"
    accent := findFirstColor vscodeTheme.colors accentKeys "#007acc"
    details := if vscodeTheme.type = "light" then "lighter" else "darker"
    terminalColors := convertTerminalColors vscodeTheme.colors }

/-! ## Filename sanitizer (`cleanFilename`, src/unnamed/part_000 173-202) -/

/-- Go `strings.ReplaceAll(s, old, new)` where `old` and `new` are single
characters: every occurrence of `a` becomes `b`. -/
def replaceAllChar (l : List Char) (a b : Char) : List Char :=
  l.map (fun c => if c = a then b else c)

/-- Go `strings.ReplaceAll(s, old, "")` where `old` is a single
character: every occurrence of `a` is removed. -/
def removeAllChar (l : List Char) (a : Char) : List Char :=
  l.filter (fun c => c ≠ a)

/-- Go `strings.ToLower` restricted to ASCII (every character this
program lowercases is ASCII). -/
def goToLowerChar (c : Char) : Char :=
  if 'A' ≤ c ∧ c ≤ 'Z' then Char.ofNat (c.toNat + 32) else c

/-- `strings.Contains(name, "__")`: does the list contain two adjacent
underscores? -/
def containsDoubleUnderscore : List Char → Bool
  | '_' :: '_' :: _ => true
  | _ :: rest => containsDoubleUnderscore rest
  | [] => false

/-- One `strings.ReplaceAll(name, "__", "_")` pass: leftmost
non-overlapping occurrences of `__` each become `_`. -/
def collapseOnce : List Char → List Char
  | '_' :: '_' :: rest => '_' :: collapseOnce rest
  | c :: rest => c :: collapseOnce rest
  | [] => []

/-- The `for strings.Contains(name, "__") { name = ReplaceAll(name, "__",
"_") }` loop, with an explicit fuel argument.  Each pass strictly
shortens a list that still contains `__` (`collapseOnce_length_lt`
below), so fuel `l.length` always suffices
(`containsDoubleUnderscore_collapseLoop`). -/
def collapseLoop : Nat → List Char → List Char
  | 0, l => l
  | n + 1, l =>
    if containsDoubleUnderscore l then collapseLoop n (collapseOnce l) else l

/-- The underscore-collapsing loop of `cleanFilename`. -/
def collapseUnderscores (l : List Char) : List Char :=
  collapseLoop l.length l

/-- Go `strings.Trim(name, "_")`: drop leading and trailing
underscores. -/
def trimUnderscoresList (l : List Char) : List Char :=
  ((l.dropWhile (· == '_')).reverse.dropWhile (· == '_')).reverse

/-- `cleanFilename` (src/unnamed/part_000 lines 173-202): the ten
single-character replacements, parenthesis removal, lowercasing, the
underscore-collapsing loop, and the final trim, in source order. -/
def cleanFilename (name : String) : String :=
  let n1 := replaceAllChar name.data ' ' '_'
  let n2 := replaceAllChar n1 '/' '_'
  let n3 := replaceAllChar n2 '\\' '_'
  let n4 := replaceAllChar n3 ':' '_'
  let n5 := replaceAllChar n4 '*' '_'
  let n6 := replaceAllChar n5 '?' '_'
  let n7 := replaceAllChar n6 '"' '_'
  let n8 := replaceAllChar n7 '<' '_'
  let n9 := replaceAllChar n8 '>' '_'
  let n10 := replaceAllChar n9 '|' '_'
  let n11 := removeAllChar n10 '('
  let n12 := removeAllChar n11 ')'
  let n13 := n12.map goToLowerChar
  let n14 := collapseUnderscores n13
  String.mk (trimUnderscoresList n14)

/-! ## Theme discovery (src/vscode.go, src/paths.go)

The model fixes a non-Windows host (`runtime.GOOS != "windows"`), where
`filepath.Separator` is `/` and `contains` is the case-sensitive
`containsString`. -/

/-- Is `pat` an initial segment of the second list? (Go string slice
comparison `str[i:i+len(substr)] == substr` at position 0.) -/
def isHeadSegment : List Char → List Char → Bool
  | [], _ => true
  | _ :: _, [] => false
  | a :: as, b :: bs => a == b && isHeadSegment as bs

/-- `containsString`/`findSubstring` (src/paths.go lines 87-101):
case-sensitive substring search. -/
def containsSubstr (pat : List Char) : List Char → Bool
  | [] => isHeadSegment pat []
  | c :: rest => isHeadSegment pat (c :: rest) || containsSubstr pat rest

/-- `hasSuffix` (src/paths.go lines 131-133), Go `strings.HasSuffix`. -/
def goHasSuffix (s suffix : String) : Bool :=
  decide (suffix.data.length ≤ s.data.length) &&
    s.data.drop (s.data.length - suffix.data.length) == suffix.data

/-- `hasThemesAtEnd` (src/paths.go lines 125-128) with `/` separator. -/
def hasThemesAtEnd (path : String) : Bool :=
  goHasSuffix path "/themes" || goHasSuffix path "/themes/"

/-- `isThemesDirectory` (src/paths.go lines 64-71) on a non-Windows host:
the path contains `/themes/`, or ends in the `themes` directory. -/
def isThemesDirectory (path : String) : Bool :=
  containsSubstr "/themes/".data path.data || hasThemesAtEnd path

/-- Go `strings.Split(s, sep)` for a single-character separator. -/
def splitOnChar (sep : Char) : List Char → List (List Char)
  | [] => [[]]
  | c :: rest =>
    if c = sep then [] :: splitOnChar sep rest
    else
      match splitOnChar sep rest with
      | [] => [[c]]
      | seg :: segs => (c :: seg) :: segs

/-- Go `filepath.Base` for the slash-separated paths this program walks:
the last path segment. -/
def basename (path : String) : String :=
  String.mk ((splitOnChar '/' path.data).getLastD [])

/-- Go `strings.TrimSuffix`: drop the suffix when present
(case-sensitive), else return the string unchanged. -/
def trimSuffix (s suffix : String) : String :=
  if goHasSuffix s suffix then
    String.mk (s.data.take (s.data.length - suffix.data.length))
  else s

/-- Go `strings.ToLower` on a whole string, restricted to ASCII. -/
def goToLower (s : String) : String :=
  String.mk (s.data.map goToLowerChar)

/-- ASCII uppercasing, the effect of Go `unicode.ToTitle` on the ASCII
letters this program title-cases. -/
def goToUpperChar (c : Char) : Char :=
  if 'a' ≤ c ∧ c ≤ 'z' then Char.ofNat (c.toNat - 32) else c

/-- Go `isSeparator` as used by `strings.Title`: an ASCII character is a
separator iff it is not a letter, digit or underscore.  (Non-ASCII
characters are approximated as separators; every character fed to
`strings.Title` by this program is ASCII.) -/
def goIsSeparator (c : Char) : Bool :=
  !(('0' ≤ c && c ≤ '9') || ('a' ≤ c && c ≤ 'z') || ('A' ≤ c && c ≤ 'Z') ||
      c == '_')

/-- The character map of Go `strings.Title`: a character is title-cased
exactly when the previous character (word start for the first) is a
separator. -/
def goTitleAux : List Char → Bool → List Char
  | [], _ => []
  | c :: rest, prevSep =>
    (if prevSep then goToUpperChar c else c) :: goTitleAux rest (goIsSeparator c)

/-- Go `strings.Title`. -/
def goTitle (s : String) : String :=
  String.mk (goTitleAux s.data true)

/-- Index of the last occurrence of `a`, Go `strings.LastIndex` for a
single-character pattern (`none` = `-1`). -/
def lastIndexOfChar (a : Char) : List Char → Option Nat
  | [] => none
  | c :: rest =>
    match lastIndexOfChar a rest with
    | some i => some (i + 1)
    | none => if c = a then some 0 else none

/-- The version-stripping step of `extractExtensionName` (src/vscode.go
lines 137-145): drop a trailing `-<version>` when the part after the last
dash is non-empty and starts with a digit or contains a dot. -/
def stripVersion (extensionDir : String) : String :=
  match lastIndexOfChar '-' extensionDir.data with
  | none => extensionDir
  | some lastDash =>
    match extensionDir.data.drop (lastDash + 1) with
    | [] => extensionDir
    | c :: rest =>
      if ('0' ≤ c && c ≤ '9') || (c :: rest).contains '.' then
        String.mk (extensionDir.data.take lastDash)
      else extensionDir

/-- The readable-name step of `extractExtensionName` (src/vscode.go lines
147-155): `publisher.extension` becomes `"Extension by Publisher"`, any
other name gets dashes replaced by spaces and is title-cased. -/
def extensionDirToLabel (extensionDir : String) : String :=
  let extensionDir := stripVersion extensionDir
  let parts := splitOnChar '.' extensionDir.data
  if extensionDir.data.contains '.' ∧ parts.length = 2 then
    goTitle (String.mk (replaceAllChar (parts.getLastD []) '-' ' ')) ++ " by " ++
      goTitle (String.mk (parts.headD []))
  else goTitle (String.mk (replaceAllChar extensionDir.data '-' ' '))

/-- `extractExtensionName` (src/vscode.go lines 130-159): find the first
`extensions` path segment that has a successor segment; derive a label
from that successor; `""` when there is none. -/
def extractFromParts : List (List Char) → String
  | part :: next :: rest =>
    if part = "extensions".data then extensionDirToLabel (String.mk next)
    else extractFromParts (next :: rest)
  | _ => ""

/-- `extractExtensionName` (src/vscode.go lines 130-159). -/
def extractExtensionName (path : String) : String :=
  extractFromParts (splitOnChar '/' path.data)

/-- `ThemeInfo` (src/vscode.go lines 44-50): one catalog entry.  The
optional `ExtensionMetadata` field is never set by discovery and is
omitted. -/
structure ThemeInfo where
  name : String
  displayName : String
  path : String
  type : String
deriving Repr, DecidableEq

/-- One regular file visited by the discovery walk: its path, and the
result of reading and JSON-parsing it (`none` = unreadable, malformed
JSON, or JSON not matching the theme shape). -/
structure FileEntry where
  path : String
  theme : Option VSCodeTheme
deriving Repr, DecidableEq

/-- `parseThemeFile` (src/vscode.go lines 96-127): reject unparseable
files and themes with an empty name; build the catalog entry with
identifier `TrimSuffix(base, ".json")` and the display name optionally
suffixed with the extension label. -/
def parseThemeFile (f : FileEntry) : Option ThemeInfo :=
  match f.theme with
  | none => none
  | some theme =>
    if theme.name = "" then none
    else
      let filename := basename f.path
      let extensionName := extractExtensionName f.path
      let displayName :=
        if extensionName ≠ "" then theme.name ++ " (" ++ extensionName ++ ")"
        else theme.name
      some { name := trimSuffix filename ".json"
             displayName := displayName
             path := f.path
             type := theme.type }

/-- `DiscoverVSCodeThemes` (src/vscode.go lines 53-93) over a modelled
walk: keep, in traversal order, every file whose lowercased path ends in
`.json`, that sits in a `themes` directory, and that parses to a named
theme; every other file — including every parse failure — is skipped and
the walk continues. -/
def discoverVSCodeThemes (files : List FileEntry) : List ThemeInfo :=
  files.filterMap (fun f =>
    if !goHasSuffix (goToLower f.path) ".json" then none
    else if !isThemesDirectory f.path then none
    else parseThemeFile f)

/-! ## Well-formedness predicates for the destination document (C1) -/

/-- A source color value whose trimmed form is non-empty and, when
`#`-prefixed, has one of the lengths `cleanColor` normalizes (4, 7
or 9). -/
abbrev goodValue (v : String) : Prop :=
  (trimSpace v).data ≠ [] ∧
    (startsWithHash (trimSpace v) = true →
      (trimSpace v).data.length = 4 ∨ (trimSpace v).data.length = 7 ∨
        (trimSpace v).data.length = 9)

/-- A well-formed destination color field: non-empty, and 7 characters
long whenever it is `#`-prefixed. -/
abbrev goodOutput (v : String) : Prop :=
  v.data ≠ [] ∧ (startsWithHash v = true → v.data.length = 7)

/-- Every value stored in the color map is a good source value. -/
def goodColorMap (colors : List (String × String)) : Prop :=
  ∀ k v, colors.lookup k = some v → goodValue v

/-- All 8 slots of a palette are well-formed. -/
abbrev goodPalette (p : ColorPalette) : Prop :=
  goodOutput p.black ∧ goodOutput p.red ∧ goodOutput p.green ∧
    goodOutput p.yellow ∧ goodOutput p.blue ∧ goodOutput p.magenta ∧
    goodOutput p.cyan ∧ goodOutput p.white

/-- All 19 color fields of a destination document are well-formed
(accent, background, foreground, 16 palette slots; `details` is not a
color field). -/
abbrev goodWarpTheme (w : WarpTheme) : Prop :=
  goodOutput w.accent ∧ goodOutput w.background ∧ goodOutput w.foreground ∧
    goodPalette w.terminalColors.normal ∧ goodPalette w.terminalColors.bright

/-- The accent candidate key at a position is absent or maps to the empty
string (the condition under which `findFirstColor` moves on). -/
abbrev absentOrEmpty (colors : List (String × String)) (key : String) : Prop :=
  colors.lookup key = none ∨ colors.lookup key = some ""

/-- The 18 directly mapped destination fields (C9): source key, field
projection, hard-coded default (src/unnamed/part_000 lines 44-45 and
73-96). -/
def mappedFields : List (String × (WarpTheme → String) × String) :=
  [("editor.background", fun w => w.background, "#1e1e1e"),
   ("editor.foreground", fun w => w.foreground, "#d4d4d4"),
   ("terminal.ansiBlack", fun w => w.terminalColors.normal.black, "#1e1e1e"),
   ("terminal.ansiRed", fun w => w.terminalColors.normal.red, "#f44747"),
   ("terminal.ansiGreen", fun w => w.terminalColors.normal.green, "#6a9955"),
   ("terminal.ansiYellow", fun w => w.terminalColors.normal.yellow, "#dcdcaa"),
   ("terminal.ansiBlue", fun w => w.terminalColors.normal.blue, "#569cd6"),
   ("terminal.ansiMagenta", fun w => w.terminalColors.normal.magenta, "#c586c0"),
   ("terminal.ansiCyan", fun w => w.terminalColors.normal.cyan, "#9cdcfe"),
   ("terminal.ansiWhite", fun w => w.terminalColors.normal.white, "#d4d4d4"),
   ("terminal.ansiBrightBlack", fun w => w.terminalColors.bright.black, "#686868"),
   ("terminal.ansiBrightRed", fun w => w.terminalColors.bright.red, "#f44747"),
   ("terminal.ansiBrightGreen", fun w => w.terminalColors.bright.green, "#6a9955"),
   ("terminal.ansiBrightYellow", fun w => w.terminalColors.bright.yellow, "#dcdcaa"),
   ("terminal.ansiBrightBlue", fun w => w.terminalColors.bright.blue, "#569cd6"),
   ("terminal.ansiBrightMagenta", fun w => w.terminalColors.bright.magenta, "#c586c0"),
   ("terminal.ansiBrightCyan", fun w => w.terminalColors.bright.cyan, "#9cdcfe"),
   ("terminal.ansiBrightWhite", fun w => w.terminalColors.bright.white, "#ffffff")]

/-! ## Spec-side sanitizer (for the refinement claim C5)

These definitions follow the words of spec §4.4, to be compared with the
source-derived `cleanFilename`. -/

/-- Modelled from the spec: "replace each of the characters space, `/`,
`\`, `:`, `*`, `?`, `"`, `<`, `>`, `|` with `_`" — a single simultaneous
per-character replacement. -/
def specReplaceChar (c : Char) : Char :=
  if c = ' ' ∨ c = '/' ∨ c = '\\' ∨ c = ':' ∨ c = '*' ∨ c = '?' ∨ c = '"' ∨
      c = '<' ∨ c = '>' ∨ c = '|' then '_' else c

/-- Modelled from the spec: "collapse any run of consecutive `_` into
one", written as a single left-to-right scan.  The flag records whether
the previously emitted character was an underscore of a still-open
run. -/
def collapseRunsAux : Bool → List Char → List Char
  | _, [] => []
  | inRun, c :: rest =>
    if c = '_' then
      if inRun then collapseRunsAux true rest
      else '_' :: collapseRunsAux true rest
    else c :: collapseRunsAux false rest

/-- Modelled from the spec (§4.4): the sanitizer as the spec words it —
simultaneous replacement of the listed characters, parenthesis removal,
lowercasing, run collapsing, underscore trimming. -/
def specSanitizeFilename (name : String) : String :=
  String.mk (trimUnderscoresList (collapseRunsAux false
    (((name.data.map specReplaceChar).filter
        (fun c => ¬(c = '(' ∨ c = ')'))).map goToLowerChar)))

/-! ## Concrete fixtures used by the claim theorems -/

/-- A source document with a whitespace-only `editor.background` and a
6-character `#`-literal `editor.foreground` (C1 counterexample input). -/
def c1BadDoc : VSCodeTheme :=
  ⟨"Bad", "dark", [("editor.background", " "), ("editor.foreground", "#12345")]⟩

/-- A source document with one well-formed color (C1 witness input). -/
def c1GoodDoc : VSCodeTheme :=
  ⟨"Good", "dark", [("editor.background", "#abc")]⟩

/-- Only `textLink.foreground` and `terminal.ansiBlue` of the accent
candidates are present (C2 witness input). -/
def c2Doc : VSCodeTheme :=
  ⟨"Accent", "dark",
    [("textLink.foreground", "#abc"), ("terminal.ansiBlue", "#ffffff")]⟩

/-- A source document with an empty color map. -/
def cEmptyDoc : VSCodeTheme := ⟨"Empty", "dark", []⟩

/-- A source document in which every mapped key is present with the empty
string as value (C9 witness input). -/
def c9Doc : VSCodeTheme :=
  ⟨"AllEmpty", "dark",
    [("editor.background", ""), ("editor.foreground", ""),
     ("terminal.ansiBlack", ""), ("terminal.ansiRed", ""),
     ("terminal.ansiGreen", ""), ("terminal.ansiYellow", ""),
     ("terminal.ansiBlue", ""), ("terminal.ansiMagenta", ""),
     ("terminal.ansiCyan", ""), ("terminal.ansiWhite", ""),
     ("terminal.ansiBrightBlack", ""), ("terminal.ansiBrightRed", ""),
     ("terminal.ansiBrightGreen", ""), ("terminal.ansiBrightYellow", ""),
     ("terminal.ansiBrightBlue", ""), ("terminal.ansiBrightMagenta", ""),
     ("terminal.ansiBrightCyan", ""), ("terminal.ansiBrightWhite", "")]⟩

/-- The valid named theme file of the C4 discovery scenario. -/
def c4ThemePath : String :=
  "/home/user/.vscode/extensions/foo.bar-1.2.3/themes/dark.json"

/-- Valid named theme inside a `themes` directory. -/
def c4File1 : FileEntry :=
  ⟨c4ThemePath, some ⟨"Dark Magic", "dark", [("editor.background", "#101010")]⟩⟩

/-- Malformed JSON file in the same `themes` directory. -/
def c4File2 : FileEntry :=
  ⟨"/home/user/.vscode/extensions/foo.bar-1.2.3/themes/broken.json", none⟩

/-- Valid JSON theme outside any `themes` path segment. -/
def c4File3 : FileEntry :=
  ⟨"/home/user/.vscode/extensions/foo.bar-1.2.3/other/valid.json",
    some ⟨"Other Theme", "dark", []⟩⟩

/-- A non-JSON file inside a `themes` directory (C4 witness input). -/
def c4TxtFile : FileEntry :=
  ⟨"/home/user/.vscode/extensions/foo.bar-1.2.3/themes/readme.txt",
    some ⟨"Txt", "dark", []⟩⟩

/-- A candidate file whose suffix is the uppercase `.JSON` (C10). -/
def c10UpperFile : FileEntry :=
  ⟨"/home/u/.vscode/extensions/pub.ext-1.0/themes/DARK.JSON",
    some ⟨"Upper", "dark", []⟩⟩

/-- A theme file with the lowercase `.json` suffix (C10 witness input). -/
def c10LowerFile : FileEntry :=
  ⟨"/x/themes/night.json", some ⟨"Night", "dark", []⟩⟩

/-- The catalog entry `parseThemeFile` produces for `c10LowerFile`. -/
def c10LowerEntry : ThemeInfo :=
  ⟨"night", "Night", "/x/themes/night.json", "dark"⟩

/-! ## Lemmas about the underscore-collapsing loop -/

theorem containsDU_cons (c : Char) (rest : List Char)
    (h2 : ∀ tail, c = '_' → rest = '_' :: tail → False) :
    containsDoubleUnderscore (c :: rest) = containsDoubleUnderscore rest := by
  rcases rest with _ | ⟨d, rest'⟩
  · by_cases hc : c = '_'
    · subst hc; rfl
    · simp [containsDoubleUnderscore, hc]
  · by_cases hc : c = '_'
    · by_cases hd : d = '_'
      · exact (h2 rest' hc (by rw [hd])).elim
      · subst hc
        simp [containsDoubleUnderscore, hd]
    · simp [containsDoubleUnderscore, hc]

theorem collapseOnce_cons (c : Char) (rest : List Char)
    (h2 : ∀ tail, c = '_' → rest = '_' :: tail → False) :
    collapseOnce (c :: rest) = c :: collapseOnce rest := by
  rcases rest with _ | ⟨d, rest'⟩
  · by_cases hc : c = '_'
    · subst hc; rfl
    · simp [collapseOnce, hc]
  · by_cases hc : c = '_'
    · by_cases hd : d = '_'
      · exact (h2 rest' hc (by rw [hd])).elim
      · subst hc
        simp [collapseOnce, hd]
    · simp [collapseOnce, hc]

theorem collapseOnce_length_le (l : List Char) :
    (collapseOnce l).length ≤ l.length := by
  induction l using collapseOnce.induct with
  | case1 rest ih =>
    simp only [collapseOnce, List.length_cons]
    omega
  | case2 c rest h2 ih =>
    rw [collapseOnce_cons c rest h2]
    simp only [List.length_cons]
    omega
  | case3 => simp [collapseOnce]

theorem collapseOnce_length_lt (l : List Char)
    (h : containsDoubleUnderscore l = true) :
    (collapseOnce l).length < l.length := by
  induction l using collapseOnce.induct with
  | case1 rest ih =>
    have := collapseOnce_length_le rest
    simp only [collapseOnce, List.length_cons]
    omega
  | case2 c rest h2 ih =>
    rw [containsDU_cons c rest h2] at h
    rw [collapseOnce_cons c rest h2]
    simp only [List.length_cons]
    exact Nat.succ_lt_succ (ih h)
  | case3 => simp [containsDoubleUnderscore] at h

theorem collapseRunsAux_true_cons_underscore (rest : List Char) :
    collapseRunsAux true ('_' :: rest) = collapseRunsAux true rest := by
  simp [collapseRunsAux]

/-- A list without adjacent underscores is fixed by the collapsing scan
(in the closed-run state; in the open-run state provided it does not
start with an underscore). -/
theorem collapseRunsAux_of_not_contains (l : List Char)
    (h : containsDoubleUnderscore l = false) :
    collapseRunsAux false l = l ∧
      (l.head? ≠ some '_' → collapseRunsAux true l = l) := by
  induction l with
  | nil => exact ⟨rfl, fun _ => rfl⟩
  | cons c rest ih =>
    by_cases hc : c = '_'
    · subst hc
      have hrest : rest.head? ≠ some '_' ∧ containsDoubleUnderscore rest = false := by
        rcases rest with _ | ⟨d, rest'⟩
        · exact ⟨by simp, rfl⟩
        · by_cases hd : d = '_'
          · subst hd
            simp [containsDoubleUnderscore] at h
          · refine ⟨by simp [hd], ?_⟩
            rwa [containsDU_cons '_' (d :: rest')
              (fun tail _ hEq => hd (by injection hEq))] at h
      constructor
      · show collapseRunsAux false ('_' :: rest) = '_' :: rest
        simp only [collapseRunsAux, if_pos rfl, if_neg (by simp : ¬False)]
        have := (ih hrest.2).2 hrest.1
        simp [this]
      · intro hhead
        simp at hhead
    · have hrest : containsDoubleUnderscore rest = false := by
        rwa [containsDU_cons c rest (fun _ hEq _ => hc hEq)] at h
      have ihr := (ih hrest).1
      constructor
      · simp [collapseRunsAux, hc, ihr]
      · intro _
        simp [collapseRunsAux, hc, ihr]

/-- One `__`→`_` pass does not change the fully collapsed form. -/
theorem collapseRunsAux_collapseOnce (l : List Char) :
    collapseRunsAux false (collapseOnce l) = collapseRunsAux false l ∧
      collapseRunsAux true (collapseOnce l) = collapseRunsAux true l := by
  induction l using collapseOnce.induct with
  | case1 rest ih =>
    show collapseRunsAux false ('_' :: collapseOnce rest) = _ ∧
      collapseRunsAux true ('_' :: collapseOnce rest) = _
    constructor
    · simp [collapseRunsAux, ih.2]
    · simp [collapseRunsAux, ih.2]
  | case2 c rest h2 ih =>
    rw [collapseOnce_cons c rest h2]
    by_cases hc : c = '_'
    · subst hc
      constructor
      · simp [collapseRunsAux, ih.2]
      · simp [collapseRunsAux, ih.2]
    · constructor
      · simp [collapseRunsAux, hc, ih.1]
      · simp [collapseRunsAux, hc, ih.1]
  | case3 => exact ⟨rfl, rfl⟩

/-- With enough fuel, the source loop computes the spec's single-scan
collapse. -/
theorem collapseLoop_eq_collapseRunsAux :
    ∀ (n : Nat) (l : List Char), l.length ≤ n →
      collapseLoop n l = collapseRunsAux false l := by
  intro n
  induction n with
  | zero =>
    intro l hl
    have : l = [] := by
      cases l with
      | nil => rfl
      | cons c rest => simp at hl
    subst this
    rfl
  | succ n ih =>
    intro l hl
    show (if containsDoubleUnderscore l then collapseLoop n (collapseOnce l)
      else l) = _
    by_cases h : containsDoubleUnderscore l = true
    · rw [if_pos h]
      have hlt := collapseOnce_length_lt l h
      rw [ih (collapseOnce l) (by omega)]
      exact (collapseRunsAux_collapseOnce l).1
    · rw [if_neg (by simpa using h)]
      have h' : containsDoubleUnderscore l = false := by
        simpa using h
      exact ((collapseRunsAux_of_not_contains l h').1).symm

/-- The source's replace-until-fixpoint loop equals the spec's one-pass
run collapse. -/
theorem collapseUnderscores_eq (l : List Char) :
    collapseUnderscores l = collapseRunsAux false l :=
  collapseLoop_eq_collapseRunsAux l.length l le_rfl

/-! ## Lemmas about `cleanColor` and the lookup helpers -/

theorem getColorOrDefault_eq (colors : List (String × String))
    (key dv : String) :
    getColorOrDefault colors key dv =
      match colors.lookup key with
      | some color => if color ≠ "" then cleanColor color else dv
      | none => dv := rfl

theorem findFirstColor_cons (colors : List (String × String)) (k : String)
    (rest : List String) (dv : String) :
    findFirstColor colors (k :: rest) dv =
      match colors.lookup k with
      | some color =>
        if color ≠ "" then cleanColor color else findFirstColor colors rest dv
      | none => findFirstColor colors rest dv := rfl

theorem startsWithHash_shape (s : String) (h : startsWithHash s = true) :
    ∃ tl, s.data = '#' :: tl := by
  unfold startsWithHash at h
  split at h
  · next _ tl heq => exact ⟨tl, heq⟩
  · simp at h

/-- A good source value cleans to a well-formed output field. -/
theorem cleanColor_goodOutput (v : String) (h : goodValue v) :
    goodOutput (cleanColor v) := by
  obtain ⟨hne, hlen⟩ := h
  unfold cleanColor
  by_cases hh : startsWithHash (trimSpace v) = true
  · obtain ⟨tl, htl⟩ := startsWithHash_shape _ hh
    rcases hlen hh with h4 | h7 | h9
    · rw [if_neg (by simp [hh]), if_neg (by omega), if_pos h4]
      have htl3 : tl.length = 3 := by
        rw [htl] at h4
        simpa using h4
      obtain ⟨a, b, c, rfl⟩ := List.length_eq_three.mp htl3
      rw [htl]
      exact ⟨by simp [expand4], fun _ => by simp [expand4]⟩
    · rw [if_neg (by simp [hh]), if_neg (by omega), if_neg (by omega)]
      exact ⟨hne, fun _ => h7⟩
    · rw [if_neg (by simp [hh]), if_pos h9]
      have htl8 : tl.length = 8 := by
        rw [htl] at h9
        simpa using h9
      rw [htl]
      constructor
      · simp
      · intro _
        simp [List.length_take]
        omega
  · rw [if_pos (by simp [hh])]
    exact ⟨hne, fun hcontra => absurd hcontra hh⟩

/-- A looked-up-or-default color is well-formed when the map holds good
values and the default is well-formed. -/
theorem getColorOrDefault_goodOutput (colors : List (String × String))
    (key dv : String) (hv : ∀ v, colors.lookup key = some v → goodValue v)
    (hd : goodOutput dv) : goodOutput (getColorOrDefault colors key dv) := by
  rcases h : colors.lookup key with _ | v
  · rw [getColorOrDefault_eq, h]
    exact hd
  · rw [getColorOrDefault_eq, h]
    show goodOutput (if v ≠ "" then cleanColor v else dv)
    by_cases hv' : v = ""
    · rw [if_neg (by simp [hv'])]
      exact hd
    · rw [if_pos hv']
      exact cleanColor_goodOutput v (hv v h)

/-- A prioritized lookup is well-formed under the same conditions. -/
theorem findFirstColor_goodOutput (colors : List (String × String))
    (keys : List String) (dv : String)
    (hv : ∀ k v, colors.lookup k = some v → goodValue v)
    (hd : goodOutput dv) : goodOutput (findFirstColor colors keys dv) := by
  induction keys with
  | nil => exact hd
  | cons k rest ih =>
    rcases h : colors.lookup k with _ | v
    · rw [findFirstColor_cons, h]
      exact ih
    · rw [findFirstColor_cons, h]
      show goodOutput (if v ≠ "" then cleanColor v else findFirstColor colors rest dv)
      by_cases hv' : v = ""
      · rw [if_neg (by simp [hv'])]
        exact ih
      · rw [if_pos hv']
        exact cleanColor_goodOutput v (hv k v h)

/-- A present-but-empty key makes `getColorOrDefault` fall back to its
default. -/
theorem getColorOrDefault_empty (colors : List (String × String))
    (key dv : String) (h : colors.lookup key = some "") :
    getColorOrDefault colors key dv = dv := by
  rw [getColorOrDefault_eq, h]
  show (if ("" : String) ≠ "" then cleanColor "" else dv) = dv
  rw [if_neg (by simp)]

/-- `findFirstColor` skips an absent-or-empty head key. -/
theorem findFirstColor_skip (colors : List (String × String))
    (k : String) (rest : List String) (dv : String)
    (h : absentOrEmpty colors k) :
    findFirstColor colors (k :: rest) dv = findFirstColor colors rest dv := by
  rcases h with h | h
  · rw [findFirstColor_cons, h]
  · rw [findFirstColor_cons, h]
    show (if ("" : String) ≠ "" then cleanColor ""
      else findFirstColor colors rest dv) = findFirstColor colors rest dv
    rw [if_neg (by simp)]

/-- `findFirstColor` returns the cleaned value of a present non-empty
head key. -/
theorem findFirstColor_hit (colors : List (String × String))
    (k : String) (rest : List String) (dv v : String)
    (h : colors.lookup k = some v) (hne : v ≠ "") :
    findFirstColor colors (k :: rest) dv = cleanColor v := by
  rw [findFirstColor_cons, h]
  show (if v ≠ "" then cleanColor v else findFirstColor colors rest dv) = cleanColor v
  rw [if_pos hne]

/-! ## Lemmas relating the sanitizer stages to the spec's description -/

/-- The ten sequential single-character replacements equal one
simultaneous replacement. -/
theorem seqReplace_eq_map (l : List Char) :
    replaceAllChar (replaceAllChar (replaceAllChar (replaceAllChar
      (replaceAllChar (replaceAllChar (replaceAllChar (replaceAllChar
        (replaceAllChar (replaceAllChar l ' ' '_') '/' '_') '\\' '_')
          ':' '_') '*' '_') '?' '_') '"' '_') '<' '_') '>' '_') '|' '_'
      = l.map specReplaceChar := by
  simp only [replaceAllChar, List.map_map]
  refine List.map_congr_left (fun c _ => ?_)
  by_cases h1 : c = ' '
  · subst h1; rfl
  by_cases h2 : c = '/'
  · subst h2; rfl
  by_cases h3 : c = '\\'
  · subst h3; rfl
  by_cases h4 : c = ':'
  · subst h4; rfl
  by_cases h5 : c = '*'
  · subst h5; rfl
  by_cases h6 : c = '?'
  · subst h6; rfl
  by_cases h7 : c = '"'
  · subst h7; rfl
  by_cases h8 : c = '<'
  · subst h8; rfl
  by_cases h9 : c = '>'
  · subst h9; rfl
  by_cases h10 : c = '|'
  · subst h10; rfl
  simp [Function.comp, specReplaceChar, h1, h2, h3, h4, h5, h6, h7, h8, h9, h10]

/-- Removing `(` and then `)` equals one filter against both. -/
theorem removeParens_eq_filter (l : List Char) :
    removeAllChar (removeAllChar l '(') ')' =
      l.filter (fun c => ¬(c = '(' ∨ c = ')')) := by
  simp only [removeAllChar, List.filter_filter]
  refine List.filter_congr (fun c _ => ?_)
  by_cases h1 : c = '(' <;> by_cases h2 : c = ')' <;> simp [h1, h2]

/-! ## Claim theorems -/

/-- C1 (counterexample): the invariant "a destination document never has
an empty or malformed color field" fails as stated.  A whitespace-only
`editor.background` cleans to the empty string, and a 6-character
`#`-literal `editor.foreground` passes through unmodified, so the output
holds an empty field and a `#`-prefixed field of length ≠ 7. -/
theorem c1_invariant_counterexample :
    (convertVSCodeToWarp c1BadDoc).background = "" ∧
      (convertVSCodeToWarp c1BadDoc).foreground = "#12345" ∧
      startsWithHash "#12345" = true ∧
      ("#12345" : String).data.length ≠ 7 := by
  decide

/-- C1 (amended): for every source document whose present color values
all trim to something non-empty and whose trimmed `#`-prefixed values
have length 4, 7 or 9, every color field of the destination document
(accent, background, foreground, all 16 palette slots) is non-empty and,
when `#`-prefixed, exactly 7 characters long. -/
theorem c1_wellformed_fields (d : VSCodeTheme) (H : goodColorMap d.colors) :
    goodWarpTheme (convertVSCodeToWarp d) := by
  have G : ∀ key dv, goodOutput dv →
      goodOutput (getColorOrDefault d.colors key dv) :=
    fun key dv hd =>
      getColorOrDefault_goodOutput d.colors key dv (fun v h => H key v h) hd
  refine ⟨?_, ?_, ?_,
    ⟨?_, ?_, ?_, ?_, ?_, ?_, ?_, ?_⟩, ⟨?_, ?_, ?_, ?_, ?_, ?_, ?_, ?_⟩⟩
  · exact findFirstColor_goodOutput d.colors accentKeys "#007acc"
      (fun k v h => H k v h) (by decide)
  · exact G "editor.background" "#1e1e1e" (by decide)
  · exact G "editor.foreground" "#d4d4d4" (by decide)
  · exact G "terminal.ansiBlack" "#1e1e1e" (by decide)
  · exact G "terminal.ansiRed" "#f44747" (by decide)
  · exact G "terminal.ansiGreen" "#6a9955" (by decide)
  · exact G "terminal.ansiYellow" "#dcdcaa" (by decide)
  · exact G "terminal.ansiBlue" "#569cd6" (by decide)
  · exact G "terminal.ansiMagenta" "#c586c0" (by decide)
  · exact G "terminal.ansiCyan" "#9cdcfe" (by decide)
  · exact G "terminal.ansiWhite" "#d4d4d4" (by decide)
  · exact G "terminal.ansiBrightBlack" "#686868" (by decide)
  · exact G "terminal.ansiBrightRed" "#f44747" (by decide)
  · exact G "terminal.ansiBrightGreen" "#6a9955" (by decide)
  · exact G "terminal.ansiBrightYellow" "#dcdcaa" (by decide)
  · exact G "terminal.ansiBrightBlue" "#569cd6" (by decide)
  · exact G "terminal.ansiBrightMagenta" "#c586c0" (by decide)
  · exact G "terminal.ansiBrightCyan" "#9cdcfe" (by decide)
  · exact G "terminal.ansiBrightWhite" "#ffffff" (by decide)

/-- C1 (witness): the amended invariant instantiated at a concrete
well-formed document. -/
theorem c1_wellformed_fields_witness :
    goodWarpTheme (convertVSCodeToWarp c1GoodDoc) := by
  refine c1_wellformed_fields c1GoodDoc ?_
  intro k v h
  by_cases hk : k = "editor.background"
  · subst hk
    simp [c1GoodDoc, List.lookup] at h
    subst h
    decide
  · have hne : (k == "editor.background") = false := by simpa using hk
    simp [c1GoodDoc, List.lookup, hne] at h

/-- C2: the destination `accent` is the cleaned value of the first key of
the ordered list focusBorder, button.background, progressBar.background,
textLink.foreground, editorCursor.foreground, terminal.ansiBlue present
with a non-empty value, and `#007acc` when all six are absent or empty;
in particular with the first three absent-or-empty a present non-empty
`textLink.foreground` wins. -/
theorem c2_accent_priority (d : VSCodeTheme) :
    (∀ v, d.colors.lookup "focusBorder" = some v → v ≠ "" →
        (convertVSCodeToWarp d).accent = cleanColor v) ∧
    (absentOrEmpty d.colors "focusBorder" →
      ∀ v, d.colors.lookup "button.background" = some v → v ≠ "" →
        (convertVSCodeToWarp d).accent = cleanColor v) ∧
    (absentOrEmpty d.colors "focusBorder" →
      absentOrEmpty d.colors "button.background" →
      ∀ v, d.colors.lookup "progressBar.background" = some v → v ≠ "" →
        (convertVSCodeToWarp d).accent = cleanColor v) ∧
    (absentOrEmpty d.colors "focusBorder" →
      absentOrEmpty d.colors "button.background" →
      absentOrEmpty d.colors "progressBar.background" →
      ∀ v, d.colors.lookup "textLink.foreground" = some v → v ≠ "" →
        (convertVSCodeToWarp d).accent = cleanColor v) ∧
    (absentOrEmpty d.colors "focusBorder" →
      absentOrEmpty d.colors "button.background" →
      absentOrEmpty d.colors "progressBar.background" →
      absentOrEmpty d.colors "textLink.foreground" →
      ∀ v, d.colors.lookup "editorCursor.foreground" = some v → v ≠ "" →
        (convertVSCodeToWarp d).accent = cleanColor v) ∧
    (absentOrEmpty d.colors "focusBorder" →
      absentOrEmpty d.colors "button.background" →
      absentOrEmpty d.colors "progressBar.background" →
      absentOrEmpty d.colors "textLink.foreground" →
      absentOrEmpty d.colors "editorCursor.foreground" →
      ∀ v, d.colors.lookup "terminal.ansiBlue" = some v → v ≠ "" →
        (convertVSCodeToWarp d).accent = cleanColor v) ∧
    (absentOrEmpty d.colors "focusBorder" →
      absentOrEmpty d.colors "button.background" →
      absentOrEmpty d.colors "progressBar.background" →
      absentOrEmpty d.colors "textLink.foreground" →
      absentOrEmpty d.colors "editorCursor.foreground" →
      absentOrEmpty d.colors "terminal.ansiBlue" →
      (convertVSCodeToWarp d).accent = "#007acc") := by
  have hacc : ∀ r : String, ((convertVSCodeToWarp d).accent = r) =
      (findFirstColor d.colors ["focusBorder", "button.background",
        "progressBar.background", "textLink.foreground",
        "editorCursor.foreground", "terminal.ansiBlue"] "#007acc" = r) :=
    fun r => rfl
  refine ⟨fun v hv hne => ?_, fun h1 v hv hne => ?_,
    fun h1 h2 v hv hne => ?_, fun h1 h2 h3 v hv hne => ?_,
    fun h1 h2 h3 h4 v hv hne => ?_, fun h1 h2 h3 h4 h5 v hv hne => ?_,
    fun h1 h2 h3 h4 h5 h6 => ?_⟩
  · rw [hacc, findFirstColor_hit _ _ _ _ _ hv hne]
  · rw [hacc, findFirstColor_skip _ _ _ _ h1,
      findFirstColor_hit _ _ _ _ _ hv hne]
  · rw [hacc, findFirstColor_skip _ _ _ _ h1, findFirstColor_skip _ _ _ _ h2,
      findFirstColor_hit _ _ _ _ _ hv hne]
  · rw [hacc, findFirstColor_skip _ _ _ _ h1, findFirstColor_skip _ _ _ _ h2,
      findFirstColor_skip _ _ _ _ h3, findFirstColor_hit _ _ _ _ _ hv hne]
  · rw [hacc, findFirstColor_skip _ _ _ _ h1, findFirstColor_skip _ _ _ _ h2,
      findFirstColor_skip _ _ _ _ h3, findFirstColor_skip _ _ _ _ h4,
      findFirstColor_hit _ _ _ _ _ hv hne]
  · rw [hacc, findFirstColor_skip _ _ _ _ h1, findFirstColor_skip _ _ _ _ h2,
      findFirstColor_skip _ _ _ _ h3, findFirstColor_skip _ _ _ _ h4,
      findFirstColor_skip _ _ _ _ h5, findFirstColor_hit _ _ _ _ _ hv hne]
  · rw [hacc, findFirstColor_skip _ _ _ _ h1, findFirstColor_skip _ _ _ _ h2,
      findFirstColor_skip _ _ _ _ h3, findFirstColor_skip _ _ _ _ h4,
      findFirstColor_skip _ _ _ _ h5, findFirstColor_skip _ _ _ _ h6]
    rfl

/-- C2 (witness): with only `textLink.foreground` and `terminal.ansiBlue`
present, `accent` is the cleaned `textLink.foreground` value. -/
theorem c2_accent_priority_witness :
    (convertVSCodeToWarp c2Doc).accent = "#aabbcc" := by
  have h := (c2_accent_priority c2Doc).2.2.2.1 (by decide) (by decide)
    (by decide) "#abc" (by decide) (by decide)
  exact h.trans (by decide)

/-- C3: `cleanColor` trims surrounding whitespace, returns non-`#`
trimmed input unchanged, truncates a 9-character literal to its first 7
characters, expands a 4-character `#RGB` literal by duplicating each
digit, returns any other trimmed input unchanged, and satisfies the
spec's four concrete examples. -/
theorem c3_cleanColor_normalization :
    (∀ s, startsWithHash (trimSpace s) = false → cleanColor s = trimSpace s) ∧
    (∀ s, startsWithHash (trimSpace s) = true →
      (trimSpace s).data.length = 9 →
      cleanColor s = String.mk ((trimSpace s).data.take 7)) ∧
    (∀ s a b c, (trimSpace s).data = ['#', a, b, c] →
      cleanColor s = String.mk ['#', a, a, b, b, c, c]) ∧
    (∀ s, startsWithHash (trimSpace s) = true →
      (trimSpace s).data.length ≠ 9 → (trimSpace s).data.length ≠ 4 →
      cleanColor s = trimSpace s) ∧
    cleanColor "#aabbccdd" = "#aabbcc" ∧ cleanColor "#abc" = "#aabbcc" ∧
    cleanColor "red" = "red" ∧ cleanColor "  #123456  " = "#123456" := by
  refine ⟨fun s h => ?_, fun s hh h9 => ?_, fun s a b c hshape => ?_,
    fun s hh h9 h4 => ?_, by decide, by decide, by decide, by decide⟩
  · unfold cleanColor
    rw [if_pos (by simp [h])]
  · unfold cleanColor
    rw [if_neg (by simp [hh]), if_pos h9]
  · have hh : startsWithHash (trimSpace s) = true := by
      unfold startsWithHash
      rw [hshape]
      rfl
    unfold cleanColor
    rw [if_neg (by simp [hh]), if_neg (by rw [hshape]; simp),
      if_pos (by rw [hshape]; rfl), hshape]
    rfl
  · unfold cleanColor
    rw [if_neg (by simp [hh]), if_neg h9, if_neg h4]

/-- C3 (witness): each of the four characterization clauses instantiated
at a concrete input. -/
theorem c3_cleanColor_normalization_witness :
    cleanColor "red" = trimSpace "red" ∧
      cleanColor "#aabbccdd" = String.mk ((trimSpace "#aabbccdd").data.take 7) ∧
      cleanColor "#abc" = String.mk ['#', 'a', 'a', 'b', 'b', 'c', 'c'] ∧
      cleanColor "#12345" = trimSpace "#12345" :=
  ⟨c3_cleanColor_normalization.1 "red" (by decide),
   c3_cleanColor_normalization.2.1 "#aabbccdd" (by decide) (by decide),
   c3_cleanColor_normalization.2.2.1 "#abc" 'a' 'b' 'c' (by decide),
   c3_cleanColor_normalization.2.2.2.1 "#12345" (by decide) (by decide)
     (by decide)⟩

/-- C4: discovery over the three-file tree — one valid named theme under
`.../extensions/foo.bar-1.2.3/themes/`, one malformed JSON file in the
same `themes` directory, one valid JSON file outside any `themes` segment
— yields exactly one catalog entry with display name
`"Dark Magic (Bar by Foo)"`; moreover a parse failure, a file whose
lowercased path does not end in `.json`, or a file outside a `themes`
directory, never aborts the scan: it is skipped and the rest of the walk
is unchanged. -/
theorem c4_discovery_scan :
    (discoverVSCodeThemes [c4File1, c4File2, c4File3] =
      [⟨"dark", "Dark Magic (Bar by Foo)", c4ThemePath, "dark"⟩]) ∧
    (∀ (fs₁ fs₂ : List FileEntry) (f : FileEntry), f.theme = none →
      discoverVSCodeThemes (fs₁ ++ f :: fs₂) =
        discoverVSCodeThemes (fs₁ ++ fs₂)) ∧
    (∀ (fs₁ fs₂ : List FileEntry) (f : FileEntry),
      goHasSuffix (goToLower f.path) ".json" = false →
      discoverVSCodeThemes (fs₁ ++ f :: fs₂) =
        discoverVSCodeThemes (fs₁ ++ fs₂)) ∧
    (∀ (fs₁ fs₂ : List FileEntry) (f : FileEntry),
      isThemesDirectory f.path = false →
      discoverVSCodeThemes (fs₁ ++ f :: fs₂) =
        discoverVSCodeThemes (fs₁ ++ fs₂)) := by
  refine ⟨by decide, ?_, ?_, ?_⟩
  · intro fs₁ fs₂ f h
    have hgf : (if goHasSuffix (goToLower f.path) ".json" = false then none
        else if isThemesDirectory f.path = false then none
        else parseThemeFile f) = none := by
      split
      · rfl
      · split
        · rfl
        · simp [parseThemeFile, h]
    simp [discoverVSCodeThemes, List.filterMap_append, List.filterMap_cons, hgf]
  · intro fs₁ fs₂ f h
    have hgf : (if goHasSuffix (goToLower f.path) ".json" = false then none
        else if isThemesDirectory f.path = false then none
        else parseThemeFile f) = none := by
      rw [if_pos h]
    simp [discoverVSCodeThemes, List.filterMap_append, List.filterMap_cons, hgf]
  · intro fs₁ fs₂ f h
    have hgf : (if goHasSuffix (goToLower f.path) ".json" = false then none
        else if isThemesDirectory f.path = false then none
        else parseThemeFile f) = none := by
      split <;> rfl
    simp [discoverVSCodeThemes, List.filterMap_append, List.filterMap_cons, hgf]

/-- C4 (witness): the skip clauses applied to the malformed JSON file, a
non-JSON file, and the valid file outside a `themes` directory. -/
theorem c4_discovery_scan_witness :
    discoverVSCodeThemes [c4File1, c4File2, c4File3] =
        discoverVSCodeThemes [c4File1, c4File3] ∧
      discoverVSCodeThemes [c4File1, c4TxtFile] =
        discoverVSCodeThemes [c4File1] ∧
      discoverVSCodeThemes [c4File1, c4File3] =
        discoverVSCodeThemes [c4File1] :=
  ⟨c4_discovery_scan.2.1 [c4File1] [c4File3] c4File2 rfl,
   c4_discovery_scan.2.2.1 [c4File1] [] c4TxtFile (by decide),
   c4_discovery_scan.2.2.2 [c4File1] [] c4File3 (by decide)⟩

/-- C5: the filename sanitizer equals, on every input, the spec's
description — simultaneous replacement of the ten listed characters by
`_`, removal of parentheses, lowercasing, collapsing each underscore run,
trimming boundary underscores — and maps `"My Theme (Pro)!! v2"` to
`"my_theme_pro!!_v2"`. -/
theorem c5_sanitizer_spec :
    (∀ name, cleanFilename name = specSanitizeFilename name) ∧
    cleanFilename "My Theme (Pro)!! v2" = "my_theme_pro!!_v2" := by
  refine ⟨fun name => ?_, by decide⟩
  show String.mk (trimUnderscoresList (collapseUnderscores
    ((removeAllChar (removeAllChar (replaceAllChar (replaceAllChar
      (replaceAllChar (replaceAllChar (replaceAllChar (replaceAllChar
        (replaceAllChar (replaceAllChar (replaceAllChar (replaceAllChar
          name.data ' ' '_') '/' '_') '\\' '_') ':' '_') '*' '_') '?' '_')
            '"' '_') '<' '_') '>' '_') '|' '_') '(') ')').map goToLowerChar)))
    = specSanitizeFilename name
  rw [seqReplace_eq_map, removeParens_eq_filter, collapseUnderscores_eq]
  rfl

/-- C6: a document without `editor.background` gets background `#1e1e1e`;
one without `editor.foreground` gets foreground `#d4d4d4`. -/
theorem c6_background_foreground_defaults (d : VSCodeTheme) :
    (d.colors.lookup "editor.background" = none →
      (convertVSCodeToWarp d).background = "#1e1e1e") ∧
    (d.colors.lookup "editor.foreground" = none →
      (convertVSCodeToWarp d).foreground = "#d4d4d4") := by
  constructor
  · intro h
    show getColorOrDefault d.colors "editor.background" "#1e1e1e" = "#1e1e1e"
    rw [getColorOrDefault_eq, h]
  · intro h
    show getColorOrDefault d.colors "editor.foreground" "#d4d4d4" = "#d4d4d4"
    rw [getColorOrDefault_eq, h]

/-- C6 (witness): the defaults at a document with an empty color map. -/
theorem c6_background_foreground_defaults_witness :
    (convertVSCodeToWarp cEmptyDoc).background = "#1e1e1e" ∧
      (convertVSCodeToWarp cEmptyDoc).foreground = "#d4d4d4" :=
  ⟨(c6_background_foreground_defaults cEmptyDoc).1 rfl,
   (c6_background_foreground_defaults cEmptyDoc).2 rfl⟩

/-- C7: `details` is `"lighter"` iff the type tag is exactly `"light"`,
and `"darker"` for every other type value (absent or empty included,
since those parse to `""` ≠ `"light"`). -/
theorem c7_details_light (d : VSCodeTheme) :
    ((convertVSCodeToWarp d).details = "lighter" ↔ d.type = "light") ∧
    (d.type ≠ "light" → (convertVSCodeToWarp d).details = "darker") := by
  have hdet : (convertVSCodeToWarp d).details =
      (if d.type = "light" then "lighter" else "darker") := rfl
  by_cases ht : d.type = "light"
  · rw [hdet, if_pos ht]
    exact ⟨⟨fun _ => ht, fun _ => rfl⟩, fun hne => absurd ht hne⟩
  · rw [hdet, if_neg ht]
    exact ⟨⟨fun h => absurd h (by decide), fun h => absurd h ht⟩, fun _ => rfl⟩

/-- C7 (witness): a `"dark"`-typed document yields `"darker"`. -/
theorem c7_details_light_witness :
    (convertVSCodeToWarp cEmptyDoc).details = "darker" :=
  (c7_details_light cEmptyDoc).2 (by decide)

/-- C8: conversion is deterministic — two conversions of the same source
document produce identical destination documents (the converter is a pure
function of the document; no metadata enters the color output). -/
theorem c8_deterministic (d₁ d₂ : VSCodeTheme) (h : d₁ = d₂) :
    convertVSCodeToWarp d₁ = convertVSCodeToWarp d₂ := by
  rw [h]

/-- C8 (witness): converting `cEmptyDoc` twice gives equal documents. -/
theorem c8_deterministic_witness :
    convertVSCodeToWarp cEmptyDoc = convertVSCodeToWarp cEmptyDoc :=
  c8_deterministic cEmptyDoc cEmptyDoc rfl

/-- C9: for every mapped destination field (background, foreground and
all 16 palette slots), a source key present with the empty string is
treated as absent: the field gets its hard-coded default. -/
theorem c9_empty_as_absent (d : VSCodeTheme) (k : String)
    (fld : WarpTheme → String) (dv : String)
    (hmem : (k, fld, dv) ∈ mappedFields)
    (h : d.colors.lookup k = some "") :
    fld (convertVSCodeToWarp d) = dv := by
  fin_cases hmem <;> exact getColorOrDefault_empty d.colors _ _ h

/-- C9 (witness): all 18 mapped fields at a document carrying every
mapped key with the empty value. -/
theorem c9_empty_as_absent_witness :
    (convertVSCodeToWarp c9Doc).background = "#1e1e1e" ∧
      (convertVSCodeToWarp c9Doc).foreground = "#d4d4d4" ∧
      (convertVSCodeToWarp c9Doc).terminalColors.normal.black = "#1e1e1e" ∧
      (convertVSCodeToWarp c9Doc).terminalColors.normal.red = "#f44747" ∧
      (convertVSCodeToWarp c9Doc).terminalColors.normal.green = "#6a9955" ∧
      (convertVSCodeToWarp c9Doc).terminalColors.normal.yellow = "#dcdcaa" ∧
      (convertVSCodeToWarp c9Doc).terminalColors.normal.blue = "#569cd6" ∧
      (convertVSCodeToWarp c9Doc).terminalColors.normal.magenta = "#c586c0" ∧
      (convertVSCodeToWarp c9Doc).terminalColors.normal.cyan = "#9cdcfe" ∧
      (convertVSCodeToWarp c9Doc).terminalColors.normal.white = "#d4d4d4" ∧
      (convertVSCodeToWarp c9Doc).terminalColors.bright.black = "#686868" ∧
      (convertVSCodeToWarp c9Doc).terminalColors.bright.red = "#f44747" ∧
      (convertVSCodeToWarp c9Doc).terminalColors.bright.green = "#6a9955" ∧
      (convertVSCodeToWarp c9Doc).terminalColors.bright.yellow = "#dcdcaa" ∧
      (convertVSCodeToWarp c9Doc).terminalColors.bright.blue = "#569cd6" ∧
      (convertVSCodeToWarp c9Doc).terminalColors.bright.magenta = "#c586c0" ∧
      (convertVSCodeToWarp c9Doc).terminalColors.bright.cyan = "#9cdcfe" ∧
      (convertVSCodeToWarp c9Doc).terminalColors.bright.white = "#ffffff" :=
  ⟨c9_empty_as_absent c9Doc "editor.background"
      (fun w => w.background) "#1e1e1e" (by simp [mappedFields]) rfl,
   c9_empty_as_absent c9Doc "editor.foreground"
      (fun w => w.foreground) "#d4d4d4" (by simp [mappedFields]) rfl,
   c9_empty_as_absent c9Doc "terminal.ansiBlack"
      (fun w => w.terminalColors.normal.black) "#1e1e1e"
      (by simp [mappedFields]) rfl,
   c9_empty_as_absent c9Doc "terminal.ansiRed"
      (fun w => w.terminalColors.normal.red) "#f44747"
      (by simp [mappedFields]) rfl,
   c9_empty_as_absent c9Doc "terminal.ansiGreen"
      (fun w => w.terminalColors.normal.green) "#6a9955"
      (by simp [mappedFields]) rfl,
   c9_empty_as_absent c9Doc "terminal.ansiYellow"
      (fun w => w.terminalColors.normal.yellow) "#dcdcaa"
      (by simp [mappedFields]) rfl,
   c9_empty_as_absent c9Doc "terminal.ansiBlue"
      (fun w => w.terminalColors.normal.blue) "#569cd6"
      (by simp [mappedFields]) rfl,
   c9_empty_as_absent c9Doc "terminal.ansiMagenta"
      (fun w => w.terminalColors.normal.magenta) "#c586c0"
      (by simp [mappedFields]) rfl,
   c9_empty_as_absent c9Doc "terminal.ansiCyan"
      (fun w => w.terminalColors.normal.cyan) "#9cdcfe"
      (by simp [mappedFields]) rfl,
   c9_empty_as_absent c9Doc "terminal.ansiWhite"
      (fun w => w.terminalColors.normal.white) "#d4d4d4"
      (by simp [mappedFields]) rfl,
   c9_empty_as_absent c9Doc "terminal.ansiBrightBlack"
      (fun w => w.terminalColors.bright.black) "#686868"
      (by simp [mappedFields]) rfl,
   c9_empty_as_absent c9Doc "terminal.ansiBrightRed"
      (fun w => w.terminalColors.bright.red) "#f44747"
      (by simp [mappedFields]) rfl,
   c9_empty_as_absent c9Doc "terminal.ansiBrightGreen"
      (fun w => w.terminalColors.bright.green) "#6a9955"
      (by simp [mappedFields]) rfl,
   c9_empty_as_absent c9Doc "terminal.ansiBrightYellow"
      (fun w => w.terminalColors.bright.yellow) "#dcdcaa"
      (by simp [mappedFields]) rfl,
   c9_empty_as_absent c9Doc "terminal.ansiBrightBlue"
      (fun w => w.terminalColors.bright.blue) "#569cd6"
      (by simp [mappedFields]) rfl,
   c9_empty_as_absent c9Doc "terminal.ansiBrightMagenta"
      (fun w => w.terminalColors.bright.magenta) "#c586c0"
      (by simp [mappedFields]) rfl,
   c9_empty_as_absent c9Doc "terminal.ansiBrightCyan"
      (fun w => w.terminalColors.bright.cyan) "#9cdcfe"
      (by simp [mappedFields]) rfl,
   c9_empty_as_absent c9Doc "terminal.ansiBrightWhite"
      (fun w => w.terminalColors.bright.white) "#ffffff"
      (by simp [mappedFields]) rfl⟩

/-- C10: a discovered entry whose base file name ends in the lowercase
`.json` has as identifier the base name with that suffix removed
(identifier ++ ".json" = base name); a candidate with the uppercase
`.JSON` suffix keeps the full base name as identifier. -/
theorem c10_identifier_suffix :
    (∀ (f : FileEntry) (entry : ThemeInfo), parseThemeFile f = some entry →
      goHasSuffix (basename f.path) ".json" = true →
      entry.name.data ++ (".json" : String).data = (basename f.path).data) ∧
    discoverVSCodeThemes [c10UpperFile] =
      [⟨"DARK.JSON", "Upper (Ext by Pub)", c10UpperFile.path, "dark"⟩] := by
  constructor
  · intro f entry hp hsuf
    unfold parseThemeFile at hp
    split at hp
    · exact absurd hp (by simp)
    · split at hp
      · exact absurd hp (by simp)
      · injection hp with hp
        subst hp
        show (trimSuffix (basename f.path) ".json").data ++ _ = _
        unfold trimSuffix
        rw [if_pos hsuf]
        unfold goHasSuffix at hsuf
        rw [Bool.and_eq_true] at hsuf
        have hdrop : (basename f.path).data.drop
            ((basename f.path).data.length - (".json" : String).data.length)
              = (".json" : String).data := eq_of_beq hsuf.2
        conv_rhs => rw [← List.take_append_drop
          ((basename f.path).data.length - (".json" : String).data.length)
          (basename f.path).data]
        rw [hdrop]
  · decide

/-- C10 (witness): the general clause at a lowercase-suffixed file. -/
theorem c10_identifier_suffix_witness :
    c10LowerEntry.name.data ++ (".json" : String).data =
      (basename c10LowerFile.path).data :=
  c10_identifier_suffix.1 c10LowerFile c10LowerEntry (by decide) (by decide)
